import Mathlib

/-!
Verification of the certmagic-azureblob storage backend (src/storage/storage.go).

Go strings and byte slices are modelled as lists of byte values (`List Nat`).
The backing Azure blob store is an external collaborator of the repository;
its contract (put/overwrite-by-key, get-by-key, delete-by-key, metadata probe,
flat paginated enumeration, atomic leasing with a distinguishable
already-leased response, HTTP 404 on absent keys) is modelled from the spec,
sections 3 and 6. All adapter logic (error mapping, filtering, the lock loop,
the registry handling) is translated from storage.go.
-/

namespace AzBlob

/-- Byte sequences: Go `[]byte` values and blob contents. -/
abbrev Bytes := List Nat

/-- Keys: Go strings viewed as byte sequences (UTF-8). -/
abbrev Key := List Nat

/-- The byte value of the delimiter character `/`. -/
def slashByte : Nat := 47

/-- A backend error as matched by the Go code: either an
`azcore.ResponseError` carrying an HTTP status code and an Azure error code
string, or any other error value (network failure, reader failure, ...). -/
inductive BackendErr where
  | resp (statusCode : Nat) (errorCode : String)
  | other (msg : String)
deriving DecidableEq, Repr

/-- The check `errors.As(err, &responseError) && responseError.StatusCode == 404`
used by Load (storage.go:122), Delete (storage.go:145) and Stat (storage.go:209). -/
def is404 : BackendErr → Bool
  | .resp 404 _ => true
  | _ => false

/-- The check `errors.As(err, &respErr) && respErr.ErrorCode == "LeaseAlreadyPresent"`
used by the acquisition loop of Lock (storage.go:257). -/
def isLeaseConflict : BackendErr → Bool
  | .resp _ code => code == "LeaseAlreadyPresent"
  | .other _ => false

/-- Errors surfaced to callers of the Storage methods: the `fs.ErrNotExist`
sentinel, a wrapped backend error with operation context (`fmt.Errorf`), or
the cancellation error `ctx.Err()`. -/
inductive StorageErr where
  | notFound
  | ioError (op : String) (e : BackendErr)
  | cancelled
deriving DecidableEq, Repr

/-- Modelled from the spec (section 3): an Object of the backing store is a
named byte blob with a last-modified timestamp; its size is the byte length. -/
structure Blob where
  data : Bytes
  modified : Nat
deriving DecidableEq, Repr

/-- Modelled from the spec (sections 3 and 6): the backing object store as a
flat association of keys to Objects, at most one live value per key. -/
abbrev Backend := List (Key × Blob)

/-- Lookup of the live Object at a key (first binding wins). -/
def Backend.find : Backend → Key → Option Blob
  | [], _ => none
  | (k2, bl) :: rest, k => if k2 = k then some bl else Backend.find rest k

/-- Removal of every binding of a key. -/
def Backend.remove : Backend → Key → Backend
  | [], _ => []
  | (k2, bl) :: rest, k =>
    if k2 = k then Backend.remove rest k else (k2, bl) :: Backend.remove rest k

/-- Modelled from the spec (section 6): put/overwrite-by-key; the whole object
is replaced and the backend assigns the new last-modified time `t`. -/
def Backend.upload (b : Backend) (k : Key) (v : Bytes) (t : Nat) : Backend :=
  (k, ⟨v, t⟩) :: Backend.remove b k

/-- Modelled from the spec (section 6): get-by-key; an absent key yields an
HTTP 404 response error. -/
def Backend.download (b : Backend) (k : Key) : Except BackendErr Bytes :=
  match Backend.find b k with
  | some bl => .ok bl.data
  | none => .error (.resp 404 "BlobNotFound")

/-- Modelled from the spec (section 6): metadata probe; an absent key yields an
HTTP 404 response error. -/
def Backend.getProps (b : Backend) (k : Key) : Except BackendErr Blob :=
  match Backend.find b k with
  | some bl => .ok bl
  | none => .error (.resp 404 "BlobNotFound")

/-- Modelled from the spec (section 6): delete-by-key; an absent key yields an
HTTP 404 response error, a present key is removed. -/
def Backend.deleteOp (b : Backend) (k : Key) : Backend × Except BackendErr Unit :=
  match Backend.find b k with
  | some _ => (Backend.remove b k, .ok ())
  | none => (b, .error (.resp 404 "BlobNotFound"))

/-- Storage.Store (storage.go:103-112): upload the bytes at the key; over the
modelled backend the upload succeeds and fully replaces the object. -/
def Store (b : Backend) (k : Key) (v : Bytes) (t : Nat) :
    Backend × Except StorageErr Unit :=
  (Backend.upload b k v t, .ok ())

/-- The error mapping of Storage.Load (storage.go:118-126): an HTTP 404
becomes `fs.ErrNotExist`, every other failure is wrapped with context. -/
def loadResp : Except BackendErr Bytes → Except StorageErr Bytes
  | .ok v => .ok v
  | .error e =>
    if is404 e then .error .notFound else .error (.ioError "downloading blob" e)

/-- Storage.Load (storage.go:115-135) over the modelled backend. -/
def Load (b : Backend) (k : Key) : Except StorageErr Bytes :=
  loadResp (Backend.download b k)

/-- The error mapping of Storage.Delete (storage.go:141-153): an HTTP 404 is
absorbed into success, every other failure is wrapped with context. -/
def deleteResp : Except BackendErr Unit → Except StorageErr Unit
  | .ok _ => .ok ()
  | .error e =>
    if is404 e then .ok () else .error (.ioError "deleting blob" e)

/-- Storage.Delete (storage.go:138-154) over the modelled backend. -/
def Delete (b : Backend) (k : Key) : Backend × Except StorageErr Unit :=
  ((Backend.deleteOp b k).1, deleteResp (Backend.deleteOp b k).2)

/-- The certmagic.KeyInfo record filled in by Stat (storage.go:215-218). -/
structure KeyInfo where
  key : Key
  modified : Nat
  size : Nat
  isTerminal : Bool
deriving DecidableEq, Repr

/-- Storage.Stat (storage.go:201-220) given the backend response to the
metadata probe: an HTTP 404 becomes `fs.ErrNotExist`, other failures are
wrapped; on success the KeyInfo is built with isTerminal always true. -/
def statResp (k : Key) : Except BackendErr Blob → Except StorageErr KeyInfo
  | .ok props => .ok ⟨k, props.modified, props.data.length, true⟩
  | .error e =>
    if is404 e then .error .notFound
    else .error (.ioError "getting properties" e)

/-- Storage.Stat over the modelled backend. -/
def Stat (b : Backend) (k : Key) : Except StorageErr KeyInfo :=
  statResp k (Backend.getProps b k)

end AzBlob

namespace AzBlob

/-- strings.HasPrefix(s, p): p is a byte-wise prefix of s at offset 0. -/
def hasPfx : Key → Key → Bool
  | _, [] => true
  | [], _ :: _ => false
  | c :: s, d :: p => c == d && hasPfx s p

/-- strings.Contains(s, "/"): some byte of s is the delimiter. -/
def hasSlash : Key → Bool
  | [] => false
  | c :: s => c == slashByte || hasSlash s

/-- The Go slice expression s[i:]: defined only when i is at most len(s);
an out-of-range index is a runtime panic, modelled as `none`. -/
def goSliceFrom (s : Key) (i : Nat) : Option Key :=
  if i ≤ s.length then some (s.drop i) else none

/-- One evaluation of the filter body of Storage.List (storage.go:182-190)
with the Go slice expression modelled as fallible: skip names that do not
start with the prefix; keep everything when recursive; otherwise slice off
the prefix (a panic if out of range) and drop names whose remainder contains
the delimiter. -/
def keepOpt (pfx : Key) (rec : Bool) (name : Key) : Option Bool :=
  if !(hasPfx name pfx) then some false
  else if rec then some true
  else
    match goSliceFrom name pfx.length with
    | none => none
    | some rest => some (!(hasSlash rest))

/-- The total filter of Storage.List (storage.go:182-190): keep a name when it
starts with the prefix and, unless recursive, its remainder after the prefix
contains no delimiter. -/
def keep (pfx : Key) (rec : Bool) (name : Key) : Bool :=
  hasPfx name pfx && (rec || !(hasSlash (name.drop pfx.length)))

/-- Storage.List (storage.go:166-198): enumerate the flat key space page by
page, filtering each page; an error on any page aborts the whole call with
that error and the collected names are discarded. -/
def listPages (pfx : Key) (rec : Bool) :
    List (Except BackendErr (List Key)) → List Key → Except StorageErr (List Key)
  | [], acc => .ok acc
  | .error e :: _, _ => .error (.ioError "listing blobs" e)
  | .ok blobs :: rest, acc =>
    listPages pfx rec rest (acc ++ blobs.filter (keep pfx rec))

/-- The per-process map from logical key to held lease handle
(`activeLocks`, storage.go:31); lease handles are opaque identifiers. -/
abbrev Registry := List (Key × Nat)

/-- Map read: the handle registered for a key, if any. -/
def Registry.find : Registry → Key → Option Nat
  | [], _ => none
  | (k2, h) :: rest, k => if k2 = k then some h else Registry.find rest k

/-- Map delete: remove every binding of a key (`delete(s.activeLocks, key)`). -/
def Registry.erase : Registry → Key → Registry
  | [], _ => []
  | (k2, h) :: rest, k =>
    if k2 = k then Registry.erase rest k else (k2, h) :: Registry.erase rest k

/-- Map assignment (`s.activeLocks[key] = leaseClient`). -/
def Registry.put (r : Registry) (k : Key) (h : Nat) : Registry :=
  (k, h) :: Registry.erase r k

/-- The ensure-marker-exists step of Storage.Lock (storage.go:229-237): when
the existence probe says the marker is absent, an empty blob is uploaded and
the result of that upload is discarded (`_ = err`), whatever it is; the step
itself never fails. -/
def ensureMarker (markerExists : Bool) (uploadResult : Except BackendErr Unit) :
    Except StorageErr Unit :=
  if markerExists then .ok ()
  else
    match uploadResult with
    | .ok _ => .ok ()
    | .error _ => .ok ()

/-- The backend response to one AcquireLease attempt (storage.go:248). -/
inductive AcqOutcome where
  | granted (leaseHandle : Nat)
  | failed (e : BackendErr)
deriving DecidableEq, Repr

/-- The result of one iteration of the acquisition loop: either the loop
finishes with a registry state and a result, or it goes around again. -/
inductive StepResult where
  | done (reg : Registry) (res : Except StorageErr Unit)
  | retry

/-- One iteration of the acquisition loop of Storage.Lock (storage.go:246-269):
on success the handle is recorded in the registry and the loop returns ok; on
a lease conflict the loop waits, during which the select either sees the timer
fire (retry) or the cancellation signal fire (return `ctx.Err()`, modelled by
`cancelFires`); on any other error the loop returns that error wrapped. -/
def lockStep (reg : Registry) (k : Key) (out : AcqOutcome) (cancelFires : Bool) :
    StepResult :=
  match out with
  | .granted h => .done (Registry.put reg k h) (.ok ())
  | .failed e =>
    if isLeaseConflict e then
      if cancelFires then .done reg (.error .cancelled) else .retry
    else .done reg (.error (.ioError "acquiring lease" e))

/-- The acquisition loop of Storage.Lock (storage.go:246-269) run over a
finite trace of attempt outcomes paired with whether cancellation fires during
the wait after that attempt; `none` means the trace ended with the loop still
polling. -/
def lockLoop (reg : Registry) (k : Key) :
    List (AcqOutcome × Bool) → Option (Registry × Except StorageErr Unit)
  | [] => none
  | (o, c) :: rest =>
    match lockStep reg k o c with
    | .done r res => some (r, res)
    | .retry => lockLoop reg k rest

/-- Storage.Lock (storage.go:223-270): the ensure-marker step followed by the
acquisition loop. -/
def Lock (reg : Registry) (k : Key) (markerExists : Bool)
    (uploadResult : Except BackendErr Unit) (trace : List (AcqOutcome × Bool)) :
    Option (Registry × Except StorageErr Unit) :=
  match ensureMarker markerExists uploadResult with
  | .error e => some (reg, .error e)
  | .ok _ => lockLoop reg k trace

/-- Storage.Unlock (storage.go:273-292): look up the key in the registry; if
absent return ok without calling the backend; if present, remove the entry
first, then release the lease, wrapping a release failure without restoring
the entry. The third component records whether ReleaseLease was invoked. -/
def Unlock (reg : Registry) (k : Key) (releaseResult : Except BackendErr Unit) :
    Registry × Except StorageErr Unit × Bool :=
  match Registry.find reg k with
  | none => (reg, .ok (), false)
  | some _ =>
    match releaseResult with
    | .ok _ => (Registry.erase reg k, .ok (), true)
    | .error e => (Registry.erase reg k, .error (.ioError "releasing lease" e), true)

end AzBlob

namespace AzBlob

theorem find_remove_self (b : Backend) (k : Key) :
    Backend.find (Backend.remove b k) k = none := by
  induction b with
  | nil => rfl
  | cons hd tl ih =>
    obtain ⟨k2, bl⟩ := hd
    by_cases h : k2 = k
    · simpa [Backend.remove, h] using ih
    · simpa [Backend.remove, Backend.find, h] using ih

theorem registry_find_erase_self (r : Registry) (k : Key) :
    Registry.find (Registry.erase r k) k = none := by
  induction r with
  | nil => rfl
  | cons hd tl ih =>
    obtain ⟨k2, h2⟩ := hd
    by_cases h : k2 = k
    · simpa [Registry.erase, h] using ih
    · simpa [Registry.erase, Registry.find, h] using ih

theorem hasPfx_length {s p : Key} (h : hasPfx s p = true) : p.length ≤ s.length := by
  induction p generalizing s with
  | nil => simp
  | cons d p ih =>
    cases s with
    | nil => simp [hasPfx] at h
    | cons c s =>
      simp only [hasPfx, Bool.and_eq_true] at h
      simpa [Nat.succ_le_succ_iff] using ih h.2

/-- C1: a successful Store(k, v) followed by Load(k) returns exactly v, and a
second Store(k, v2) after Store(k, v1) makes Load(k) return v2 — Store is an
unconditional whole-object overwrite. -/
theorem c1_store_load_roundtrip (b : Backend) (k : Key) (v v2 : Bytes) (t t2 : Nat) :
    (Store b k v t).2 = .ok () ∧
    Load (Store b k v t).1 k = .ok v ∧
    Load (Store (Store b k v t).1 k v2 t2).1 k = .ok v2 := by
  refine ⟨rfl, ?_, ?_⟩ <;>
    simp [Load, Store, Backend.upload, Backend.download, Backend.find, loadResp]

/-- C3: Delete is idempotent — the backend 404 on an absent key is absorbed
into success, two consecutive Delete calls on an initially present key both
succeed, and an error is returned only if the key still exists afterwards. -/
theorem c3_delete_idempotent (b : Backend) (k : Key) (e : BackendErr) :
    (Backend.find b k = none → Delete b k = (b, .ok ())) ∧
    ((Backend.find b k).isSome = true →
      (Delete b k).2 = .ok () ∧ (Delete (Delete b k).1 k).2 = .ok ()) ∧
    (is404 e = true → deleteResp (.error e) = .ok ()) ∧
    (∀ err, (Delete b k).2 = .error err →
      (Backend.find (Delete b k).1 k).isSome = true) := by
  refine ⟨?_, ?_, ?_, ?_⟩
  · intro h
    simp [Delete, Backend.deleteOp, h, deleteResp, is404]
  · intro h
    rw [Option.isSome_iff_exists] at h
    obtain ⟨bl, hbl⟩ := h
    constructor
    · simp [Delete, Backend.deleteOp, hbl, deleteResp]
    · simp [Delete, Backend.deleteOp, hbl, find_remove_self, deleteResp, is404]
  · intro h
    simp [deleteResp, h]
  · intro err herr
    exfalso
    rcases hf : Backend.find b k with _ | bl
    · simp [Delete, Backend.deleteOp, hf, deleteResp, is404] at herr
    · simp [Delete, Backend.deleteOp, hf, deleteResp] at herr

/-- C3 witness: evaluation at an absent key and at a present key. -/
theorem c3_delete_idempotent_witness :
    Delete ([] : Backend) [1] = ([], .ok ()) ∧
    (Delete [([1], ⟨[7], 0⟩)] [1]).2 = .ok () ∧
    (Delete (Delete [([1], ⟨[7], 0⟩)] [1]).1 [1]).2 = .ok () :=
  ⟨(c3_delete_idempotent [] [1] (.resp 404 "x")).1 rfl,
   ((c3_delete_idempotent [([1], ⟨[7], 0⟩)] [1] (.resp 404 "x")).2.1 (by decide)).1,
   ((c3_delete_idempotent [([1], ⟨[7], 0⟩)] [1] (.resp 404 "x")).2.1 (by decide)).2⟩

/-- C8: for an absent key, Load and Stat return the NotFound error, every
backend 404 collapses to it, any other backend failure maps to a wrapped
I/O error, and NotFound is structurally distinct from every other error kind. -/
theorem c8_notfound_distinct (b : Backend) (k : Key) (e : BackendErr) :
    (Backend.find b k = none →
      Load b k = .error .notFound ∧ Stat b k = .error .notFound) ∧
    (is404 e = true →
      loadResp (.error e) = .error .notFound ∧
      statResp k (.error e) = .error .notFound) ∧
    (is404 e = false →
      loadResp (.error e) = .error (.ioError "downloading blob" e) ∧
      statResp k (.error e) = .error (.ioError "getting properties" e)) ∧
    (∀ op e2, StorageErr.notFound ≠ .ioError op e2) ∧
    StorageErr.notFound ≠ .cancelled := by
  refine ⟨?_, ?_, ?_, ?_, ?_⟩
  · intro h
    constructor
    · simp [Load, Backend.download, h, loadResp, is404]
    · simp [Stat, Backend.getProps, h, statResp, is404]
  · intro h
    exact ⟨by simp [loadResp, h], by simp [statResp, h]⟩
  · intro h
    exact ⟨by simp [loadResp, h], by simp [statResp, h]⟩
  · intro op e2 hc
    exact StorageErr.noConfusion hc
  · intro hc
    exact StorageErr.noConfusion hc

/-- C8 witness: evaluation at an absent key, a 404 response and a 500 response. -/
theorem c8_notfound_distinct_witness :
    (Load ([] : Backend) [1] = .error .notFound ∧
      Stat ([] : Backend) [1] = .error .notFound) ∧
    (loadResp (.error (.resp 404 "BlobNotFound")) = .error .notFound ∧
      statResp [1] (.error (.resp 404 "BlobNotFound")) = .error .notFound) ∧
    (loadResp (.error (.resp 500 "ServerBusy")) =
        .error (.ioError "downloading blob" (.resp 500 "ServerBusy")) ∧
      statResp [1] (.error (.resp 500 "ServerBusy")) =
        .error (.ioError "getting properties" (.resp 500 "ServerBusy"))) :=
  ⟨(c8_notfound_distinct [] [1] (.resp 404 "BlobNotFound")).1 rfl,
   (c8_notfound_distinct [] [1] (.resp 404 "BlobNotFound")).2.1 (by decide),
   (c8_notfound_distinct [] [1] (.resp 500 "ServerBusy")).2.2.1 (by decide)⟩

/-- C10: the filter body of List never takes an out-of-bounds slice — the
fallible evaluation always succeeds and agrees with the total filter, because
the slice is only reached after the prefix guard bounds the length. -/
theorem c10_list_filter_total (pfx : Key) (rec : Bool) (name : Key) :
    keepOpt pfx rec name = some (keep pfx rec name) := by
  by_cases hp : hasPfx name pfx
  · have hlen : pfx.length ≤ name.length := hasPfx_length hp
    cases rec with
    | true => simp [keepOpt, keep, hp]
    | false => simp [keepOpt, keep, hp, goSliceFrom, hlen]
  · have hf : hasPfx name pfx = false := by simpa using hp
    simp [keepOpt, keep, hf]

end AzBlob

namespace AzBlob

theorem listPages_ok (pfx : Key) (rec : Bool) (pages : List (List Key)) (acc : List Key) :
    listPages pfx rec (pages.map Except.ok) acc =
      .ok (acc ++ (pages.flatten).filter (keep pfx rec)) := by
  induction pages generalizing acc with
  | nil => simp [listPages]
  | cons p ps ih =>
    simp [listPages, ih, List.filter_append, List.append_assoc]

/-- C2: a key appears in the result of List(p, r) iff it is a stored key that
starts with p at offset 0 and, when r is false, its remainder after stripping
p contains no delimiter; a prefix matching nothing yields ok with the empty
sequence, never an error. -/
theorem c2_list_membership (pages : List (List Key)) (pfx k : Key) (rec : Bool) :
    ∃ names, listPages pfx rec (pages.map Except.ok) [] = .ok names ∧
      (k ∈ names ↔
        k ∈ pages.flatten ∧ hasPfx k pfx = true ∧
          (rec = false → hasSlash (k.drop pfx.length) = false)) := by
  refine ⟨(pages.flatten).filter (keep pfx rec), by simpa using listPages_ok pfx rec pages [], ?_⟩
  have hkeep : keep pfx rec k = true ↔
      hasPfx k pfx = true ∧ (rec = false → hasSlash (k.drop pfx.length) = false) := by
    cases rec <;> simp [keep]
  rw [List.mem_filter, hkeep]

/-- C4: contrary to the claim, the marker-creation step of Lock swallows every
creation failure, not only the already-exists condition: the upload error is
discarded whatever it is, and Lock proceeds to the acquisition loop even after
a creation failure that is not already-exists (here an authorization failure). -/
theorem c4_marker_creation_failure_swallowed :
    ensureMarker false (.error (.resp 403 "AuthorizationFailure")) = .ok () ∧
    (∀ e, ensureMarker false (.error e) = .ok ()) ∧
    (∀ reg k tr, Lock reg k false (.error (.resp 403 "AuthorizationFailure")) tr =
      lockLoop reg k tr) := by
  refine ⟨rfl, ?_, ?_⟩
  · intro e
    rfl
  · intro reg k tr
    rfl

/-- C5: in the acquisition loop a non-conflict failure aborts immediately with
that error wrapped and no retry, a conflict failure with no cancellation
retries the loop, and a lease-conflict error is never the error surfaced to
the caller. -/
theorem c5_lock_loop_error_policy :
    (∀ reg k e c rest, isLeaseConflict e = false →
      lockLoop reg k ((.failed e, c) :: rest) =
        some (reg, .error (.ioError "acquiring lease" e))) ∧
    (∀ reg k e rest, isLeaseConflict e = true →
      lockLoop reg k ((.failed e, false) :: rest) = lockLoop reg k rest) ∧
    (∀ reg k tr res op e,
      lockLoop reg k tr = some (res, .error (.ioError op e)) →
      isLeaseConflict e = false) := by
  refine ⟨?_, ?_, ?_⟩
  · intro reg k e c rest h
    simp [lockLoop, lockStep, h]
  · intro reg k e rest h
    simp [lockLoop, lockStep, h]
  · intro reg k tr
    induction tr with
    | nil =>
      intro res op e h
      simp [lockLoop] at h
    | cons hd tl ih =>
      intro res op e h
      obtain ⟨o, c⟩ := hd
      cases o with
      | granted hl =>
        simp [lockLoop, lockStep] at h
      | failed e2 =>
        by_cases hc : isLeaseConflict e2 = true
        · cases c with
          | true => simp [lockLoop, lockStep, hc] at h
          | false =>
            simp only [lockLoop, lockStep, hc, if_true, if_false] at h
            exact ih res op e h
        · have hf : isLeaseConflict e2 = false := by simpa using hc
          simp [lockLoop, lockStep, hf] at h
          rcases h with ⟨-, -, rfl⟩
          exact hf

/-- C5 witness: a 500 aborts immediately with that error wrapped, a lease
conflict retries, and the surfaced error of the first trace is no conflict. -/
theorem c5_lock_loop_error_policy_witness :
    lockLoop [] [1] [(.failed (.resp 500 "ServerBusy"), false)] =
      some ([], .error (.ioError "acquiring lease" (.resp 500 "ServerBusy"))) ∧
    lockLoop [] [1]
        [(.failed (.resp 409 "LeaseAlreadyPresent"), false), (.granted 7, false)] =
      lockLoop [] [1] [(.granted 7, false)] ∧
    isLeaseConflict (.resp 500 "ServerBusy") = false :=
  ⟨c5_lock_loop_error_policy.1 [] [1] (.resp 500 "ServerBusy") false [] (by decide),
   c5_lock_loop_error_policy.2.1 [] [1] (.resp 409 "LeaseAlreadyPresent")
     [(.granted 7, false)] (by decide),
   c5_lock_loop_error_policy.2.2 [] [1] [(.failed (.resp 500 "ServerBusy"), false)]
     [] "acquiring lease" (.resp 500 "ServerBusy") rfl⟩

/-- C6: when cancellation fires during the wait after a lease conflict, the
loop returns the cancellation error with the registry unchanged — no entry is
added for the key — and the cancellation error is structurally distinct from
every I/O error and from NotFound. -/
theorem c6_cancellation_no_residual (reg : Registry) (k : Key) (e : BackendErr)
    (rest : List (AcqOutcome × Bool)) (h : isLeaseConflict e = true) :
    lockLoop reg k ((.failed e, true) :: rest) = some (reg, .error .cancelled) ∧
    (∀ op e2, (StorageErr.cancelled : StorageErr) ≠ .ioError op e2) ∧
    (StorageErr.cancelled : StorageErr) ≠ .notFound := by
  refine ⟨by simp [lockLoop, lockStep, h], ?_, ?_⟩
  · intro op e2 hc
    exact StorageErr.noConfusion hc
  · intro hc
    exact StorageErr.noConfusion hc

/-- C6 witness: cancellation during the wait returns the registry as it was. -/
theorem c6_cancellation_no_residual_witness :
    lockLoop [([2], 5)] [1] [(.failed (.resp 409 "LeaseAlreadyPresent"), true)] =
      some ([([2], 5)], .error .cancelled) :=
  (c6_cancellation_no_residual [([2], 5)] [1] (.resp 409 "LeaseAlreadyPresent")
    [] (by decide)).1

/-- C7: Unlock with no registry entry returns ok without a backend release
call; with an entry, the entry is removed and a release failure does not
restore it, so after any Unlock the registry holds no entry for the key and a
subsequent Unlock returns ok without a backend call. -/
theorem c7_unlock_registry (reg : Registry) (k : Key) (r r2 : Except BackendErr Unit) :
    (Registry.find reg k = none → Unlock reg k r = (reg, .ok (), false)) ∧
    ((Registry.find reg k).isSome = true →
      (Unlock reg k r).1 = Registry.erase reg k ∧ (Unlock reg k r).2.2 = true) ∧
    Registry.find (Unlock reg k r).1 k = none ∧
    Unlock (Unlock reg k r).1 k r2 = ((Unlock reg k r).1, .ok (), false) := by
  rcases hf : Registry.find reg k with _ | h
  · refine ⟨fun _ => by simp [Unlock, hf], fun hs => absurd hs (by simp), ?_, ?_⟩
    · simp [Unlock, hf]
    · simp [Unlock, hf]
  · have h1 : (Unlock reg k r).1 = Registry.erase reg k := by
      cases r <;> simp [Unlock, hf]
    have h3 : Registry.find (Unlock reg k r).1 k = none := by
      rw [h1]
      exact registry_find_erase_self reg k
    refine ⟨fun hn => by simp [hf] at hn, fun _ => ⟨h1, ?_⟩, h3, ?_⟩
    · cases r <;> simp [Unlock, hf]
    · generalize hg : (Unlock reg k r).1 = reg2 at h3 ⊢
      simp [Unlock, h3]

/-- C7 witness: evaluation with an empty registry and with a held entry whose
release fails. -/
theorem c7_unlock_registry_witness :
    Unlock ([] : Registry) [1] (.ok ()) = ([], .ok (), false) ∧
    (Unlock [([1], 5)] [1] (.error (.other "net"))).1 = Registry.erase [([1], 5)] [1] ∧
    (Unlock [([1], 5)] [1] (.error (.other "net"))).2.2 = true :=
  ⟨(c7_unlock_registry [] [1] (.ok ()) (.ok ())).1 rfl,
   ((c7_unlock_registry [([1], 5)] [1] (.error (.other "net")) (.ok ())).2.1 (by decide)).1,
   ((c7_unlock_registry [([1], 5)] [1] (.error (.other "net")) (.ok ())).2.1 (by decide)).2⟩

end AzBlob
